import Mathlib

/-!
Shallow embedding of the smart door lock system
(src/face_recognition_system_optimized.py) and proofs about it.

Conventions of the embedding:
* Python floats (times, durations, confidences, distances, load percentages)
  are modelled as rationals (ℚ).
* The GPIO actuator is modelled by a boolean `gpioOk`: when it is `false`,
  the call `GPIO.output(...)` raises, which the Python code catches with
  `except` and turns into a `False` return value.
* The `threading.Timer` held in `DoorLockController.unlock_timer` is modelled
  by `Option ℚ`: `some deadline` is a live (pending) relock timer scheduled to
  fire at `deadline`, `none` means no live timer (absent or cancelled).
-/

namespace SmartDoorLock

/-- State of `DoorLockController`: the relay pin, the default lock duration,
the `is_unlocked` flag, and the pending relock timer (deadline), if any. -/
structure DoorState where
  relayPin : Nat
  lockDuration : ℚ
  isUnlocked : Bool
  unlockTimer : Option ℚ
  deriving Repr, DecidableEq

/-- Embedding of `DoorLockController.unlock_door(duration=None)`.
The Python body: default the duration, cancel a live timer if present,
write the relay HIGH (may raise), set `is_unlocked = True`, start a fresh
relock timer for `duration`, return `True`; on an exception it returns
`False`.  Note the timer cancellation happens before the GPIO write, so a
failing write leaves the timer already cancelled. -/
def unlock_door (gpioOk : Bool) (now : ℚ) (duration : Option ℚ)
    (s : DoorState) : Bool × DoorState :=
  let d := duration.getD s.lockDuration
  let s1 : DoorState := { s with unlockTimer := none }
  if gpioOk then
    (true, { s1 with isUnlocked := true, unlockTimer := some (now + d) })
  else
    (false, s1)

/-- Embedding of `DoorLockController.force_lock()`: cancel a live timer if
present, write the relay LOW (may raise), set `is_unlocked = False`, return
`True`; on an exception it returns `False`. -/
def force_lock (gpioOk : Bool) (s : DoorState) : Bool × DoorState :=
  let s1 : DoorState := { s with unlockTimer := none }
  if gpioOk then
    (true, { s1 with isUnlocked := false })
  else
    (false, s1)

/-- The relock callback `DoorLockController._lock_door` fires at time `t`
exactly when a live timer with deadline `t` is still pending (a cancelled
`threading.Timer` never runs its callback). -/
def relock_fires_at (s : DoorState) (t : ℚ) : Bool :=
  s.unlockTimer == some t

/-- A concrete unlocked door with a pending relock timer at deadline 7. -/
def unlockedWithTimer : DoorState :=
  { relayPin := 12, lockDuration := 5, isUnlocked := true, unlockTimer := some 7 }

/-- C2 counterexample: with the door `Unlocked` and a relock timer pending at
deadline 7, a failing actuator write inside `unlock_door` returns failure but
does NOT leave the door state exactly as it was: the pending relock timer has
already been cancelled (and the same happens in `force_lock`).  So the claim
"all fields of DoorState are left exactly as they were" is false. -/
theorem unlock_door_failure_not_state_preserving :
    (unlock_door false 0 none unlockedWithTimer).1 = false ∧
    (unlock_door false 0 none unlockedWithTimer).2 ≠ unlockedWithTimer ∧
    (force_lock false unlockedWithTimer).2 ≠ unlockedWithTimer := by
  refine ⟨rfl, ?_, ?_⟩ <;>
    · intro h
      have h2 := congrArg DoorState.unlockTimer h
      simp [unlock_door, force_lock, unlockedWithTimer] at h2

/-- C2 amended: on an actuator write failure, `unlock_door` and `force_lock`
return failure and leave the `is_unlocked` flag unchanged (no optimistic
transition of the flag), but any pending relock timer has been cancelled
(the timer field of the resulting state is `none`, whatever it was before). -/
theorem actuator_failure_flag_unchanged (now : ℚ) (duration : Option ℚ)
    (s : DoorState) :
    (unlock_door false now duration s).1 = false ∧
    (unlock_door false now duration s).2.isUnlocked = s.isUnlocked ∧
    (unlock_door false now duration s).2.unlockTimer = none ∧
    (force_lock false s).1 = false ∧
    (force_lock false s).2.isUnlocked = s.isUnlocked ∧
    (force_lock false s).2.unlockTimer = none :=
  ⟨rfl, rfl, rfl, rfl, rfl, rfl⟩

/-- C3: from any door state, `force_lock` with a working actuator reports
success and moves the door to `Locked` with no pending timer; consequently the
relock callback can no longer fire at any previously scheduled deadline. -/
theorem force_lock_locks_and_cancels (s : DoorState) :
    force_lock true s =
      (true, { s with isUnlocked := false, unlockTimer := none }) ∧
    ∀ t : ℚ, relock_fires_at (force_lock true s).2 t = false := by
  refine ⟨rfl, fun t => ?_⟩
  simp [force_lock, relock_fires_at]

/-- C4: from any door state, `unlock_door` with a working actuator reports
success and moves the door to `Unlocked` with a relock deadline of
`now + duration` (the controller's default `lock_duration` when no duration is
given).  The resulting timer field is `some (now + duration)` regardless of
the previous timer, so a pending relock timer is cancelled and replaced: the
last unlock request wins and durations do not stack. -/
theorem unlock_door_unlocks_and_replaces_timer (now : ℚ) (duration : Option ℚ)
    (s : DoorState) :
    unlock_door true now duration s =
      (true, { s with isUnlocked := true,
                      unlockTimer := some (now + duration.getD s.lockDuration) }) :=
  rfl

/-! Recognition: the per-face body of `FaceRecognitionSystem.process_frame`. -/

/-- The recognition-related configuration of `FaceRecognitionSystem`:
`auto_unlock`, `unlock_confidence` and `tolerance`. -/
structure RecogConfig where
  autoUnlock : Bool
  unlockConfidence : ℚ
  tolerance : ℚ
  deriving Repr, DecidableEq

/-- One entry of the `results` list built by `process_frame` (the bounding box
is omitted; it is carried through unchanged apart from the fixed `* 4`
rescaling). -/
structure FaceResult where
  name : String
  confidence : ℚ
  isAuthorized : Bool
  deriving Repr, DecidableEq

/-- Embedding of `np.argmin` over a nonempty list, carrying the running best
value: `argmin_go bd i bi ds` scans `ds` (whose first element has index `i`)
with current best value `bd` at index `bi`, and returns the index of the first
minimum together with that minimum value.  `np.argmin` keeps the first
occurrence of the minimum, hence the strict `<` when updating. -/
def argmin_go : ℚ → Nat → Nat → List ℚ → Nat × ℚ
  | bd, _, bi, [] => (bi, bd)
  | bd, i, bi, d :: ds =>
      if d < bd then argmin_go d (i + 1) i ds else argmin_go bd (i + 1) bi ds

/-- Index of the first minimal element of a list of distances, paired with
that minimal distance (`best_match_index = np.argmin(face_distances)` together
with `face_distances[best_match_index]`).  For an empty list it returns
`(0, 0)`, but the caller only uses it when the list is nonempty. -/
def best_match : List ℚ → Nat × ℚ
  | [] => (0, 0)
  | d :: ds => argmin_go d 1 0 ds

/-- Embedding of the per-face loop body of `process_frame`
(lines 359-436 of the source), for one face whose distances to the known
encodings are `ds`:

* `name`, `confidence`, `is_authorized` start as `"Unknown"`, `0.0`, `False`;
* if there are known encodings, the best match index and distance are
  computed; if `matches[best_match_index]` holds — `compare_faces` accepts
  exactly when `distance <= tolerance` — the name is looked up, the
  confidence becomes `1 - distance` and `is_authorized` tests membership in
  `authorized_users`;
* the door is auto-unlocked (a single `unlock_door()` call with the default
  duration) exactly when `auto_unlock` and `is_authorized` hold, the
  confidence reaches `unlock_confidence`, and the door is not unlocked.

The returned `Nat` counts the `unlock_door` actuator calls made (0 or 1). -/
def process_face (cfg : RecogConfig) (names authorizedUsers : List String)
    (gpioOk : Bool) (now : ℚ) (door : DoorState) (ds : List ℚ) :
    FaceResult × DoorState × Nat :=
  if 0 < ds.length then
    let best := best_match ds
    if best.2 ≤ cfg.tolerance then
      let name := names.getD best.1 "Unknown"
      let confidence := 1 - best.2
      let isAuthorized := authorizedUsers.contains name
      if cfg.autoUnlock && isAuthorized &&
          decide (cfg.unlockConfidence ≤ confidence) && !door.isUnlocked then
        let r := unlock_door gpioOk now none door
        (⟨name, confidence, isAuthorized⟩, r.2, 1)
      else
        (⟨name, confidence, isAuthorized⟩, door, 0)
    else
      (⟨"Unknown", 0, false⟩, door, 0)
  else
    (⟨"Unknown", 0, false⟩, door, 0)

/-- The minimum value found by `argmin_go` is the running best or an element
of the remaining list. -/
theorem argmin_go_snd_mem (ds : List ℚ) :
    ∀ bd i bi, (argmin_go bd i bi ds).2 = bd ∨ (argmin_go bd i bi ds).2 ∈ ds := by
  induction ds with
  | nil => intro bd i bi; left; rfl
  | cons d ds ih =>
      intro bd i bi
      by_cases h : d < bd
      · rcases ih d (i + 1) i with h2 | h2 <;>
          simp [argmin_go, h, h2]
      · rcases ih bd (i + 1) bi with h2 | h2 <;>
          simp [argmin_go, h, h2]

/-- The best-match distance of a nonempty list is one of its elements. -/
theorem best_match_snd_mem (ds : List ℚ) (h : ds ≠ []) :
    (best_match ds).2 ∈ ds := by
  cases ds with
  | nil => exact absurd rfl h
  | cons d ds =>
      rcases argmin_go_snd_mem ds d 1 0 with h2 | h2 <;>
        simp [best_match, h2]

/-- C1: for a recognized frame containing a matched face (a nonempty set of
known encodings whose best-match distance passes the tolerance check), the
auto-unlock actuator call happens if and only if `auto_unlock` is enabled, the
matched identity is authorized, the confidence `1 - distance` reaches
`unlock_confidence`, and the door is currently locked.  When the door is
already unlocked the request is a no-op (door state untouched, zero actuator
calls), not an error; and after a successful auto-unlock, re-processing the
identical detection on the next recognized frame makes no further actuator
call. -/
theorem auto_unlock_gating (cfg : RecogConfig) (names auth : List String)
    (gpioOk : Bool) (now now2 : ℚ) (door : DoorState) (ds : List ℚ)
    (hne : 0 < ds.length) (hacc : (best_match ds).2 ≤ cfg.tolerance) :
    ((process_face cfg names auth gpioOk now door ds).2.2 = 1 ↔
      (cfg.autoUnlock = true ∧
       auth.contains (names.getD (best_match ds).1 "Unknown") = true ∧
       cfg.unlockConfidence ≤ 1 - (best_match ds).2 ∧
       door.isUnlocked = false)) ∧
    (door.isUnlocked = true →
      (process_face cfg names auth gpioOk now door ds).2 = (door, 0)) ∧
    ((process_face cfg names auth true now door ds).2.2 = 1 →
      (process_face cfg names auth true now2
        (process_face cfg names auth true now door ds).2.1 ds).2.2 = 0) := by
  simp only [process_face, if_pos hne, if_pos hacc]
  set g := cfg.autoUnlock &&
    auth.contains (names.getD (best_match ds).1 "Unknown") &&
    decide (cfg.unlockConfidence ≤ 1 - (best_match ds).2) &&
    !door.isUnlocked with hgdef
  by_cases hg : g = true
  · have hparts := hgdef ▸ hg
    simp only [Bool.and_eq_true, Bool.not_eq_true', decide_eq_true_eq] at hparts
    obtain ⟨⟨⟨h1, h2⟩, h3⟩, h4⟩ := hparts
    refine ⟨?_, ?_, ?_⟩
    · refine iff_of_true ?_ ⟨h1, h2, h3, h4⟩
      simp [hg]
    · intro hu; rw [h4] at hu; exact absurd hu (by simp)
    · intro _
      have hdoor2 : (unlock_door true now none door).2.isUnlocked = true := rfl
      simp only [hg, if_true]
      simp [process_face, if_pos hne, if_pos hacc, hdoor2]
  · have hg2 : g = false := by simpa using hg
    refine ⟨?_, ?_, ?_⟩
    · simp only [hg2, if_false]
      refine iff_of_false (by simp) ?_
      rintro ⟨h1, h2, h3, h4⟩
      rw [hgdef, h1, h2, h4] at hg2
      simp at hg2
      exact absurd h3 (not_le.mpr hg2)
    · intro _; simp [hg2]
    · intro h; simp [hg2] at h

/-- C1 witness: with `auto_unlock` on, threshold `8/10`, tolerance `4/10`,
one known user `alice` who is authorized, a single distance `1/10`
(confidence `9/10`), and the door locked, the gating theorem applies. -/
theorem auto_unlock_gating_witness :
    (0 < ([(1 : ℚ)/10]).length ∧
     (best_match [(1 : ℚ)/10]).2 ≤ (RecogConfig.mk true (8/10) (4/10)).tolerance) ∧
    (((process_face (RecogConfig.mk true (8/10) (4/10)) ["alice"] ["alice"]
        true 0 (DoorState.mk 12 5 false none) [(1 : ℚ)/10]).2.2 = 1 ↔
      ((RecogConfig.mk true (8/10) (4/10)).autoUnlock = true ∧
       (["alice"]).contains ((["alice"]).getD (best_match [(1 : ℚ)/10]).1 "Unknown") = true ∧
       (RecogConfig.mk true (8/10) (4/10)).unlockConfidence ≤ 1 - (best_match [(1 : ℚ)/10]).2 ∧
       (DoorState.mk 12 5 false none).isUnlocked = false)) ∧
    ((DoorState.mk 12 5 false none).isUnlocked = true →
      (process_face (RecogConfig.mk true (8/10) (4/10)) ["alice"] ["alice"]
        true 0 (DoorState.mk 12 5 false none) [(1 : ℚ)/10]).2 =
        (DoorState.mk 12 5 false none, 0)) ∧
    ((process_face (RecogConfig.mk true (8/10) (4/10)) ["alice"] ["alice"]
        true 0 (DoorState.mk 12 5 false none) [(1 : ℚ)/10]).2.2 = 1 →
      (process_face (RecogConfig.mk true (8/10) (4/10)) ["alice"] ["alice"]
        true 1
        (process_face (RecogConfig.mk true (8/10) (4/10)) ["alice"] ["alice"]
          true 0 (DoorState.mk 12 5 false none) [(1 : ℚ)/10]).2.1
        [(1 : ℚ)/10]).2.2 = 0)) :=
  ⟨⟨by decide, by norm_num [best_match, argmin_go]⟩,
   auto_unlock_gating (RecogConfig.mk true (8/10) (4/10)) ["alice"] ["alice"]
     true 0 1 (DoorState.mk 12 5 false none) [(1 : ℚ)/10]
     (by decide) (by norm_num [best_match, argmin_go])⟩

/-- C6: for a detection whose best match is accepted (nonempty known
encodings, best-match distance within the tolerance), the detection built by
`process_face` has confidence `1 - distance` for the best-matching known
encoding, this confidence lies in `[0, 1]` (distances are norms, hence
nonnegative, and the tolerance in use is `0.4 ≤ 1`), and `is_authorized`
holds exactly when the matched name belongs to the authorized-users set. -/
theorem detection_fields_spec (cfg : RecogConfig) (names auth : List String)
    (gpioOk : Bool) (now : ℚ) (door : DoorState) (ds : List ℚ)
    (hne : 0 < ds.length) (hacc : (best_match ds).2 ≤ cfg.tolerance)
    (hnn : ∀ d ∈ ds, 0 ≤ d) (htol : cfg.tolerance ≤ 1) :
    (process_face cfg names auth gpioOk now door ds).1.confidence =
      1 - (best_match ds).2 ∧
    0 ≤ (process_face cfg names auth gpioOk now door ds).1.confidence ∧
    (process_face cfg names auth gpioOk now door ds).1.confidence ≤ 1 ∧
    ((process_face cfg names auth gpioOk now door ds).1.isAuthorized = true ↔
      names.getD (best_match ds).1 "Unknown" ∈ auth) := by
  have hmem : (best_match ds).2 ∈ ds :=
    best_match_snd_mem ds (List.ne_nil_of_length_pos hne)
  have hd0 : 0 ≤ (best_match ds).2 := hnn _ hmem
  have hres : (process_face cfg names auth gpioOk now door ds).1 =
      ⟨names.getD (best_match ds).1 "Unknown", 1 - (best_match ds).2,
        auth.contains (names.getD (best_match ds).1 "Unknown")⟩ := by
    simp only [process_face, if_pos hne, if_pos hacc]
    split <;> rfl
  refine ⟨by rw [hres], ?_, ?_, ?_⟩
  · rw [hres]
    have : (best_match ds).2 ≤ 1 := le_trans hacc htol
    simpa using this
  · rw [hres]
    simp
    exact hd0
  · rw [hres]
    simp

/-- C6 witness: two known users at distances `3/10` and `1/10`; the best
match is `bob` at distance `1/10`, accepted under tolerance `4/10`, with
confidence `9/10` and authorized since `bob` is in the authorization set. -/
theorem detection_fields_spec_witness :
    (0 < ([(3 : ℚ)/10, 1/10]).length ∧
     (best_match [(3 : ℚ)/10, 1/10]).2 ≤ (RecogConfig.mk true (8/10) (4/10)).tolerance ∧
     (∀ d ∈ [(3 : ℚ)/10, 1/10], 0 ≤ d) ∧
     (RecogConfig.mk true (8/10) (4/10)).tolerance ≤ 1) ∧
    ((process_face (RecogConfig.mk true (8/10) (4/10)) ["alice", "bob"] ["bob"]
        true 0 (DoorState.mk 12 5 false none) [(3 : ℚ)/10, 1/10]).1.confidence =
      1 - (best_match [(3 : ℚ)/10, 1/10]).2 ∧
    0 ≤ (process_face (RecogConfig.mk true (8/10) (4/10)) ["alice", "bob"] ["bob"]
        true 0 (DoorState.mk 12 5 false none) [(3 : ℚ)/10, 1/10]).1.confidence ∧
    (process_face (RecogConfig.mk true (8/10) (4/10)) ["alice", "bob"] ["bob"]
        true 0 (DoorState.mk 12 5 false none) [(3 : ℚ)/10, 1/10]).1.confidence ≤ 1 ∧
    ((process_face (RecogConfig.mk true (8/10) (4/10)) ["alice", "bob"] ["bob"]
        true 0 (DoorState.mk 12 5 false none) [(3 : ℚ)/10, 1/10]).1.isAuthorized = true ↔
      (["alice", "bob"]).getD (best_match [(3 : ℚ)/10, 1/10]).1 "Unknown" ∈ ["bob"])) :=
  ⟨⟨by decide, by norm_num [best_match, argmin_go],
    by intro d hd; fin_cases hd <;> norm_num, by norm_num⟩,
   detection_fields_spec (RecogConfig.mk true (8/10) (4/10)) ["alice", "bob"]
     ["bob"] true 0 (DoorState.mk 12 5 false none) [(3 : ℚ)/10, 1/10]
     (by decide) (by norm_num [best_match, argmin_go])
     (by intro d hd; fin_cases hd <;> norm_num) (by norm_num)⟩

/-! Frame-rate gating of recognition (`process_frame`, lines 322-340). -/

/-- Embedding of the gating decision of `process_frame`:
`perform_recognition = force_recognition or (frame_count % recognition_interval == 0)`. -/
def recognition_gate (force : Bool) (frameCount interval : Nat) : Bool :=
  force || (frameCount % interval == 0)

/-- Outcome of one `process_frame` call for gating purposes: whether
recognition ran and the detection list produced (`results` starts as `[]` and
is only filled on recognized frames). -/
structure FrameOutcome where
  recognized : Bool
  results : List FaceResult
  deriving Repr, DecidableEq

/-- Gating skeleton of `process_frame`: with the current `frame_count`,
decide whether to recognize, increment `frame_count`, and produce either the
matcher's detections or the empty list. -/
def process_frame_gate (interval : Nat) (force : Bool)
    (detections : List FaceResult) (frameCount : Nat) : FrameOutcome × Nat :=
  let pr := recognition_gate force frameCount interval
  ({ recognized := pr, results := if pr then detections else [] }, frameCount + 1)

/-- The stream loop calling `process_frame` once per captured frame, starting
from the given `frame_count`; each entry of `frames` is one frame's
(`force_recognition`, matcher detections) pair. -/
def stream_frames (interval : Nat) : Nat → List (Bool × List FaceResult) → List FrameOutcome
  | _, [] => []
  | fc, f :: rest =>
      let r := process_frame_gate interval f.1 f.2 fc
      r.1 :: stream_frames interval r.2 rest

/-- The outcome of the frame at position `i` is computed with counter value
`fc + i`: `frame_count` advances by exactly one per processed frame. -/
theorem stream_frames_getD (interval : Nat) (frames : List (Bool × List FaceResult)) :
    ∀ fc i, i < frames.length →
      (stream_frames interval fc frames).getD i ⟨false, []⟩ =
        (process_frame_gate interval (frames.getD i (false, [])).1
          (frames.getD i (false, [])).2 (fc + i)).1 := by
  induction frames with
  | nil => intro fc i hi; simp at hi
  | cons f rest ih =>
      intro fc i hi
      cases i with
      | zero => simp [stream_frames]
      | succ n =>
          have hn : n < rest.length := by simpa using hi
          simp only [stream_frames, List.getD_cons_succ]
          have hfc : (process_frame_gate interval f.1 f.2 fc).2 = fc + 1 := rfl
          rw [hfc, ih (fc + 1) n hn]
          have hadd : fc + 1 + n = fc + (n + 1) := by omega
          rw [hadd]

/-- C5: in the stream loop started with `frame_count = 0`, the frame at
index `i` (counting from 0) is recognized if and only if recognition is
forced for it or `i % recognition_interval = 0`; a frame that is not selected
produces an empty detection list. -/
theorem recognition_iff_interval (interval : Nat)
    (frames : List (Bool × List FaceResult)) (i : Nat) (hi : i < frames.length) :
    (((stream_frames interval 0 frames).getD i ⟨false, []⟩).recognized = true ↔
      ((frames.getD i (false, [])).1 = true ∨ i % interval = 0)) ∧
    ((frames.getD i (false, [])).1 = false → ¬ i % interval = 0 →
      ((stream_frames interval 0 frames).getD i ⟨false, []⟩).results = []) := by
  rw [stream_frames_getD interval frames 0 i hi]
  constructor
  · simp [process_frame_gate, recognition_gate]
  · intro hforce hmod
    simp only [process_frame_gate, recognition_gate, Nat.zero_add]
    rw [hforce]
    simp [hmod]

/-- Five unforced captured frames, one of which carries a detection, used as
a concrete input for the gating theorem. -/
def demoFrames : List (Bool × List FaceResult) :=
  [(false, [{ name := "alice", confidence := 1, isAuthorized := true }]),
   (false, []), (false, []), (false, []), (false, [])]

/-- C5 witness: with `recognition_interval = 3` and the five unforced frames
of `demoFrames`, the gating theorem applies at frame index 1, which is
skipped with an empty detection list. -/
theorem recognition_iff_interval_witness :
    (1 < demoFrames.length) ∧
    ((((stream_frames 3 0 demoFrames).getD 1 ⟨false, []⟩).recognized = true ↔
      ((demoFrames.getD 1 (false, [])).1 = true ∨ 1 % 3 = 0)) ∧
    ((demoFrames.getD 1 (false, [])).1 = false → ¬ 1 % 3 = 0 →
      ((stream_frames 3 0 demoFrames).getD 1 ⟨false, []⟩).results = [])) :=
  ⟨by decide, recognition_iff_interval 3 demoFrames 1 (by decide)⟩

/-! Event fan-out: `broadcast_event` (lines 284-298). -/

/-- Embedding of `FaceRecognitionSystem.broadcast_event`: the message is
built once and sent to every connected client with
`asyncio.gather(*[client.send(message) for client in self.clients],
return_exceptions=True)`.  `clients` is the connected-client set (modelled in
iteration order), `sendOk c` tells whether the send to client `c` succeeds or
raises.  The result pairs the list of per-client delivery attempts
(client, delivered?) with the client set after the call: `gather` collects
exceptions into its result list, which the code discards, and no client is
removed by the publish path. -/
def broadcast_event (clients : List Nat) (sendOk : Nat → Bool) :
    List (Nat × Bool) × List Nat :=
  (clients.map (fun c => (c, sendOk c)), clients)

/-- C7 counterexample: publishing to the attached set `[1, 2, 3]` where the
send to client 2 fails delivers to clients 1 and 3 exactly once each, but the
failing client 2 is NOT scheduled for detachment: the client set after the
publish still contains client 2, unchanged.  This refutes the claim's
"causes the failing observer to be scheduled for detachment". -/
theorem broadcast_event_no_detach :
    (broadcast_event [1, 2, 3] (fun c => !(c == 2))).1 =
      [(1, true), (2, false), (3, true)] ∧
    (broadcast_event [1, 2, 3] (fun c => !(c == 2))).2 = [1, 2, 3] ∧
    2 ∈ (broadcast_event [1, 2, 3] (fun c => !(c == 2))).2 := by
  refine ⟨rfl, rfl, by decide⟩

/-- C7 amended: `broadcast_event` attempts exactly one send to every attached
client (so a failure for one client never prevents or duplicates delivery to
the others, and every client whose send succeeds receives the event exactly
once), failures are swallowed by `gather(..., return_exceptions=True)`, and
the attached-client set is left unchanged — no observer is detached by the
publish itself (detachment only happens when a client's own connection
handler exits). -/
theorem broadcast_event_delivers_all (clients : List Nat) (sendOk : Nat → Bool)
    (c : Nat) (hnd : clients.Nodup) (hc : c ∈ clients) :
    ((broadcast_event clients sendOk).1.filter (fun p => p.1 == c)).length = 1 ∧
    (c, sendOk c) ∈ (broadcast_event clients sendOk).1 ∧
    (broadcast_event clients sendOk).2 = clients := by
  refine ⟨?_, List.mem_map_of_mem _ hc, rfl⟩
  have hfm : (clients.map (fun x => (x, sendOk x))).filter (fun p => p.1 == c) =
      (clients.filter (fun x => x == c)).map (fun x => (x, sendOk x)) := by
    rw [List.filter_map]
    rfl
  simp only [broadcast_event, hfm, List.length_map]
  rw [← List.countP_eq_length_filter]
  have : clients.countP (fun x => x == c) = clients.count c := rfl
  rw [this]
  exact List.count_eq_one_of_mem hnd hc

/-- C7 amended-claim witness: clients `[1, 2, 3]` with the send to client 2
failing; client 3 gets exactly one delivery attempt, receives the event, and
the client set is unchanged. -/
theorem broadcast_event_delivers_all_witness :
    (([1, 2, 3] : List Nat).Nodup ∧ 3 ∈ ([1, 2, 3] : List Nat)) ∧
    (((broadcast_event [1, 2, 3] (fun c => !(c == 2))).1.filter
        (fun p => p.1 == 3)).length = 1 ∧
     (3, (fun c => !(c == 2)) 3) ∈ (broadcast_event [1, 2, 3] (fun c => !(c == 2))).1 ∧
     (broadcast_event [1, 2, 3] (fun c => !(c == 2))).2 = [1, 2, 3]) :=
  ⟨⟨by decide, by decide⟩,
   broadcast_event_delivers_all [1, 2, 3] (fun c => !(c == 2)) 3
     (by decide) (by decide)⟩

/-! Load-adaptive encoding quality (`adjust_quality_based_on_load`,
lines 300-320). -/

/-- Embedding of `adjust_quality_based_on_load`: if `adaptive_quality` is
off, return the configured `jpeg_quality`; otherwise band the returned
quality on the sampled cpu/memory load percentages. -/
def adjust_quality_based_on_load (adaptiveQuality : Bool) (jpegQuality : ℚ)
    (cpuPercent memoryPercent : ℚ) : ℚ :=
  if !adaptiveQuality then jpegQuality
  else if cpuPercent > 90 ∨ memoryPercent > 90 then max 30 (jpegQuality - 20)
  else if cpuPercent > 75 ∨ memoryPercent > 75 then max 40 (jpegQuality - 10)
  else if cpuPercent < 50 ∧ memoryPercent < 50 then min 85 (jpegQuality + 5)
  else jpegQuality

/-- Modelled from the spec wording of `chooseQuality` (§4.3), for comparison
with the code's `adjust_quality_based_on_load`. -/
def chooseQuality (cpu mem base : ℚ) : ℚ :=
  if cpu > 90 ∨ mem > 90 then max 30 (base - 20)
  else if cpu > 75 ∨ mem > 75 then max 40 (base - 10)
  else if cpu < 50 ∧ mem < 50 then min 85 (base + 5)
  else base

/-- C8: with adaptive quality enabled, the chosen encoding quality is the
pure banding function of the spec, and in particular
`cpu=95, mem=20, base=60` gives 40, `cpu=30, mem=30, base=60` gives 65 and
`cpu=80, mem=10, base=60` gives 50. -/
theorem adjust_quality_banding (base cpu mem : ℚ) :
    adjust_quality_based_on_load true base cpu mem = chooseQuality cpu mem base ∧
    adjust_quality_based_on_load true 60 95 20 = 40 ∧
    adjust_quality_based_on_load true 60 30 30 = 65 ∧
    adjust_quality_based_on_load true 60 80 10 = 50 := by
  refine ⟨rfl, ?_, ?_, ?_⟩ <;> norm_num [adjust_quality_based_on_load]

/-! The capture loop's read-failure handling (`start_camera_stream`,
lines 489-505). -/

/-- Observable state of the `while self.running and self.clients` stream
loop: whether the most recent capture-device open succeeded, how many times
the device was re-opened, how many frames were processed, and whether the
loop is still running. -/
structure CamLoopState where
  cameraOpen : Bool
  reopenCount : Nat
  framesProcessed : Nat
  running : Bool
  deriving Repr, DecidableEq

/-- Embedding of one iteration of the stream loop, restricted to its
read/reopen control flow: `readOk` is the `ret` flag of
`self.camera.read()`, `reopenOk` tells whether the immediate
`cv2.VideoCapture(0)` reinitialization succeeds.  On a failed read the code
releases the camera and opens a fresh capture device before continuing with
the next iteration (`continue`); on a successful read the frame is
processed.  Neither branch stops the loop. -/
def stream_read_step (readOk reopenOk : Bool) (st : CamLoopState) : CamLoopState :=
  if readOk then { st with framesProcessed := st.framesProcessed + 1 }
  else { st with cameraOpen := reopenOk, reopenCount := st.reopenCount + 1 }

/-- Iterating the stream loop over a list of (readOk, reopenOk) events. -/
def stream_run : List (Bool × Bool) → CamLoopState → CamLoopState
  | [], st => st
  | e :: rest, st => stream_run rest (stream_read_step e.1 e.2 st)

/-- The stream loop state before any read has happened. -/
def freshCamState : CamLoopState :=
  { cameraOpen := true, reopenCount := 0, framesProcessed := 0, running := true }

/-- C9 counterexample: the very first failed read already re-opens the
capture device (one reopen after a single transient failure), so there is no
number N ≥ 1 of consecutive failures that are retried without reopening; the
loop does continue running. -/
theorem stream_reopens_on_first_failure :
    (stream_read_step false true freshCamState).reopenCount = 1 ∧
    (stream_run [(false, true)] freshCamState).reopenCount = 1 ∧
    (stream_run [(false, true)] freshCamState).running = true := by
  refine ⟨rfl, rfl, rfl⟩

/-- C9 amended: every failed read immediately releases and re-opens the
capture device (the reopen count equals the number of failed reads — there is
no grace window of retries without reopening), and in all cases the loop
keeps running: a read failure never terminates the stream. -/
theorem stream_read_failure_policy (events : List (Bool × Bool))
    (st : CamLoopState) :
    (stream_run events st).reopenCount =
      st.reopenCount + (events.filter (fun e => !e.1)).length ∧
    (stream_run events st).running = st.running := by
  induction events generalizing st with
  | nil => simp [stream_run]
  | cons e rest ih =>
      cases he : e.1 with
      | true =>
          have hstep : stream_read_step true e.2 st =
              { st with framesProcessed := st.framesProcessed + 1 } := rfl
          have h2 := ih { st with framesProcessed := st.framesProcessed + 1 }
          constructor
          · simp only [stream_run, he, hstep, List.filter_cons]
            rw [h2.1]
            simp
          · simp only [stream_run, he, hstep]
            exact h2.2
      | false =>
          have hstep : stream_read_step false e.2 st =
              { st with cameraOpen := e.2, reopenCount := st.reopenCount + 1 } := rfl
          have h2 := ih { st with cameraOpen := e.2, reopenCount := st.reopenCount + 1 }
          constructor
          · simp only [stream_run, he, hstep, List.filter_cons]
            rw [h2.1]
            simp
            try omega
          · simp only [stream_run, he, hstep]
            exact h2.2

/-! User management: `add_user` (lines 815-849), `remove_user` (851-875),
`set_user_authorization` (877-898) and `reset_face_data` (1210-1241). -/

/-- A face encoding (a 128-dimensional vector in the real system). -/
abbrev Encoding := List ℚ

/-- The user-management state of `FaceRecognitionSystem`:
`known_face_encodings`, `known_face_names` and the `authorized_users` set. -/
structure UserStore where
  encodings : List Encoding
  names : List String
  authorized : Finset String
  deriving DecidableEq

/-- The data-model invariant: encodings and names are parallel lists of equal
length, and every authorized user is a known face name. -/
def store_invariant (s : UserStore) : Prop :=
  s.encodings.length = s.names.length ∧ ∀ u ∈ s.authorized, u ∈ s.names

/-- Embedding of `add_user`: decoding the image and extracting exactly one
face encoding may fail (`encodingFound = none`), in which case an error is
returned and nothing is mutated; otherwise the encoding and the name are
appended to the parallel lists and, if `authorized`, the name is added to
`authorized_users`. -/
def add_user (s : UserStore) (name : String) (encodingFound : Option Encoding)
    (authorized : Bool) : Bool × UserStore :=
  match encodingFound with
  | none => (false, s)
  | some enc =>
      (true, { s with encodings := s.encodings ++ [enc],
                      names := s.names ++ [name],
                      authorized := if authorized then insert name s.authorized
                                    else s.authorized })

/-- Embedding of `remove_user`: if the name is known, the entries at
`known_face_names.index(name)` are popped from both parallel lists and the
name is discarded from `authorized_users`; otherwise an error is returned and
nothing changes. -/
def remove_user (s : UserStore) (name : String) : Bool × UserStore :=
  if name ∈ s.names then
    let index := s.names.indexOf name
    (true, { s with names := s.names.eraseIdx index,
                    encodings := s.encodings.eraseIdx index,
                    authorized := s.authorized.erase name })
  else
    (false, s)

/-- Embedding of `set_user_authorization`: unknown names are rejected;
otherwise the name is added to or discarded from `authorized_users`. -/
def set_user_authorization (s : UserStore) (name : String) (authorized : Bool) :
    Bool × UserStore :=
  if name ∈ s.names then
    (true, { s with authorized := if authorized then insert name s.authorized
                                  else s.authorized.erase name })
  else
    (false, s)

/-- Embedding of `reset_face_data`: all three collections are cleared. -/
def reset_face_data (_s : UserStore) : UserStore :=
  { encodings := [], names := [], authorized := ∅ }

/-- C10: every user-management operation preserves the store invariant —
the parallel encoding/name lists stay equally long and the authorized set
stays a subset of the known names — whichever arguments it is called with
and whether it succeeds or is rejected. -/
theorem user_management_preserves_invariant (s : UserStore) (name : String)
    (encodingFound : Option Encoding) (authorized : Bool)
    (hinv : store_invariant s) :
    store_invariant (add_user s name encodingFound authorized).2 ∧
    store_invariant (remove_user s name).2 ∧
    store_invariant (set_user_authorization s name authorized).2 ∧
    store_invariant (reset_face_data s) := by
  obtain ⟨hlen, hsub⟩ := hinv
  refine ⟨?_, ?_, ?_, ?_⟩
  · cases encodingFound with
    | none => exact ⟨hlen, hsub⟩
    | some enc =>
        refine ⟨by simp [add_user, hlen], ?_⟩
        intro u hu
        simp only [add_user] at hu ⊢
        by_cases ha : authorized = true
        · rw [ha, if_pos rfl] at hu
          rcases Finset.mem_insert.mp hu with h | h
          · simp [h]
          · simp [hsub u h]
        · rw [eq_false_of_ne_true ha, if_neg (by simp)] at hu
          simp [hsub u hu]
  · by_cases hmem : name ∈ s.names
    · have hidx : s.names.indexOf name < s.names.length :=
        List.indexOf_lt_length.mpr hmem
      have hidx2 : s.names.indexOf name < s.encodings.length := hlen ▸ hidx
      refine ⟨?_, ?_⟩
      · simp only [remove_user, if_pos hmem]
        have e1 := List.length_eraseIdx_add_one hidx2
        have e2 := List.length_eraseIdx_add_one hidx
        omega
      · intro u hu
        simp only [remove_user, if_pos hmem] at hu ⊢
        have hne : u ≠ name := (Finset.mem_erase.mp hu).1
        have humem : u ∈ s.names := hsub u (Finset.mem_erase.mp hu).2
        rw [List.eraseIdx_indexOf_eq_erase]
        exact (List.mem_erase_of_ne hne).mpr humem
    · simp only [remove_user, if_neg hmem]
      exact ⟨hlen, hsub⟩
  · by_cases hmem : name ∈ s.names
    · simp only [store_invariant, set_user_authorization, if_pos hmem]
      refine ⟨hlen, ?_⟩
      intro u hu
      by_cases ha : authorized = true
      · rw [ha, if_pos rfl] at hu
        rcases Finset.mem_insert.mp hu with h | h
        · exact h ▸ hmem
        · exact hsub u h
      · rw [eq_false_of_ne_true ha, if_neg (by simp)] at hu
        exact hsub u (Finset.mem_erase.mp hu).2
    · simp only [set_user_authorization, if_neg hmem]
      exact ⟨hlen, hsub⟩
  · exact ⟨rfl, by simp [reset_face_data]⟩

/-- A concrete store with one enrolled, authorized user. -/
def demoStore : UserStore :=
  { encodings := [[1, 2]], names := ["alice"], authorized := {"alice"} }

/-- C10 witness: the invariant holds of `demoStore` and is preserved by each
operation applied to it. -/
theorem user_management_preserves_invariant_witness :
    store_invariant demoStore ∧
    (store_invariant (add_user demoStore "bob" (some [3, 4]) true).2 ∧
     store_invariant (remove_user demoStore "bob").2 ∧
     store_invariant (set_user_authorization demoStore "bob" true).2 ∧
     store_invariant (reset_face_data demoStore)) :=
  ⟨⟨rfl, by simp [demoStore]⟩,
   user_management_preserves_invariant demoStore "bob" (some [3, 4]) true
     ⟨rfl, by simp [demoStore]⟩⟩

end SmartDoorLock
